import Mathlib

/-!
Verification of the sync/metrics core of the dropship product-research tracker
(`src/App.jsx`).

The JavaScript source is shallowly embedded:
* JS numbers are modelled as exact rationals (`ℚ`); the decimal fragment parsed
  by `parseFloat` is exactly representable, and the claims under scrutiny are
  stated over that fragment (the nonfinite literals `Infinity`/`NaN` and hex
  literals are outside the model).
* Strings are Lean `String`s; `toLowerCase` is modelled on the ASCII fragment
  by `Char.toLower`.
* Firestore documents are key/value pairs; a snapshot is a list of them in
  iteration order; `setDoc` is create-or-overwrite on an association list.
* Fire-and-forget writes are modelled as lists of write intents returned by
  each step, with state threaded explicitly.
-/

namespace Dropship

/-! ## Data model (mirrors the document shape used by `App.jsx`) -/

structure Competitor where
  brand : String
  adLink : String
  storeLink : String
  adsCount : String
  traffic : String
deriving DecidableEq

structure OtherLink where
  id : String
  title : String
  url : String
deriving DecidableEq

/-- A product record. `createdAt` is `Option Int` (epoch ms); `none` models an
absent field, which the source treats as `0` via `p.createdAt || 0`. -/
structure Product where
  id : String
  name : String
  status : String
  cogs : String
  price : String
  valueProp : String
  supplierLink : String
  targetMarket : String
  hasContent : Bool
  competitors : List Competitor
  otherLinks : List OtherLink
  personalNotes : String
  internalNotes : String
  createdAt : Option Int
deriving DecidableEq

/-- Mirrors `INITIAL_COMPETITOR` from the source. -/
def INITIAL_COMPETITOR : Competitor :=
  { brand := "", adLink := "", storeLink := "", adsCount := "", traffic := "" }

/-- Mirrors `NEW_PRODUCT_TEMPLATE` from the source (three blank competitors). -/
def NEW_PRODUCT_TEMPLATE : Product :=
  { id := "", name := "", status := "Pending", cogs := "", price := "",
    valueProp := "", supplierLink := "", targetMarket := "", hasContent := false,
    competitors := [INITIAL_COMPETITOR, INITIAL_COMPETITOR, INITIAL_COMPETITOR],
    otherLinks := [], personalNotes := "", internalNotes := "",
    createdAt := none }

/-! ## Metrics -/

/-- JS whitespace accepted at the front of `parseFloat` input (ASCII fragment). -/
def isWs (c : Char) : Bool :=
  c == ' ' || c == '\t' || c == '\n' || c == '\r'

/-- Splits a leading run of ASCII digits off a character list. -/
def takeDigits : List Char → List Char × List Char
  | [] => ([], [])
  | c :: cs =>
    if c.isDigit then
      let (ds, rest) := takeDigits cs
      (c :: ds, rest)
    else ([], c :: cs)

/-- Value of a digit string, most significant first. -/
def digitsToNat (ds : List Char) : Nat :=
  ds.foldl (fun acc c => acc * 10 + (c.toNat - 48)) 0

/-- Exponent part of a float literal: `e`/`E`, optional sign, digits. A bare
`e` with no digits contributes exponent 0 (parseFloat stops before it). -/
def expValue (cs : List Char) : Int :=
  match cs with
  | [] => 0
  | c :: rest =>
    if c == 'e' || c == 'E' then
      let (esign, rest2) : Int × List Char :=
        match rest with
        | '+' :: r => (1, r)
        | '-' :: r => (-1, r)
        | r => (1, r)
      let (ds, _) := takeDigits rest2
      if ds.isEmpty then 0 else esign * (digitsToNat ds : Int)
    else 0

/-- Modelled from the spec: the external JavaScript builtin `parseFloat`
("parse both as floating point"), on the finite decimal fragment: leading
whitespace, optional sign, digits with optional fraction, optional exponent,
trailing garbage ignored; `none` models `NaN` (no digits found). -/
def parseFloat (s : String) : Option ℚ :=
  let cs := s.toList.dropWhile isWs
  let (sign, cs1) : ℚ × List Char :=
    match cs with
    | '+' :: r => (1, r)
    | '-' :: r => (-1, r)
    | r => (1, r)
  let (intDs, cs2) := takeDigits cs1
  let (fracDs, cs3) :=
    match cs2 with
    | '.' :: r => takeDigits r
    | r => ([], r)
  if intDs.isEmpty && fracDs.isEmpty then none
  else
    let mantissa : ℚ :=
      (digitsToNat intDs : ℚ) + (digitsToNat fracDs : ℚ) / (10 : ℚ) ^ fracDs.length
    some (sign * mantissa * (10 : ℚ) ^ expValue cs3)

/-- Two-digit zero-padded rendering of `k < 100`. -/
def twoDigitStr (k : Nat) : String :=
  (if k < 10 then "0" else "") ++ toString k

/-- `Number.prototype.toFixed(2)` on a nonnegative rational: the integer `n`
with `n/100` closest to the value, ties to the larger `n`. -/
def toFixed2Nonneg (q : ℚ) : String :=
  let n : Nat := (⌊q * 100 + 1/2⌋).toNat
  toString (n / 100) ++ "." ++ twoDigitStr (n % 100)

/-- Modelled from the spec: `toFixed(2)` ("rounded to 2 decimal places as a
formatted numeric string"); negative values are rendered as `-` ++ the
rendering of the negation, per the ECMAScript algorithm. -/
def toFixed2 (q : ℚ) : String :=
  if q < 0 then "-" ++ toFixed2Nonneg (-q) else toFixed2Nonneg q

/-- The value `calculateRoas` returns: JS `null`, a number, or a string. -/
inductive RoasResult where
  | null : RoasResult
  | num : ℚ → RoasResult
  | str : String → RoasResult
deriving DecidableEq

/-- Embeds `calculateRoas` (src/App.jsx lines 86-95): parse both inputs; if
either is NaN return null; if `margin = p - c ≤ 0` return the number 0; else
return `(p / margin).toFixed(2)`. -/
def calculateRoas (price cogs : String) : RoasResult :=
  match parseFloat price, parseFloat cogs with
  | none, _ => .null
  | some _, none => .null
  | some p, some c =>
    let margin := p - c
    if margin ≤ 0 then .num 0
    else .str (toFixed2 (p / margin))

/-- A JS value passed to `formatCurrency`: the app passes number or string. -/
inductive JsVal where
  | num : ℚ → JsVal
  | str : String → JsVal
deriving DecidableEq

/-- Groups the decimal digits of an integer-part string with commas every
three digits, as `Intl.NumberFormat("en-US")` does. -/
def groupChunks : List Char → List (List Char)
  | a :: b :: c :: d :: rest => [a, b, c] :: groupChunks (d :: rest)
  | l => [l]

def groupDigits (s : String) : String :=
  String.intercalate "," (((groupChunks s.toList.reverse).map
    (fun chunk => String.mk chunk.reverse)).reverse)

/-- Modelled from the spec: the external `Intl.NumberFormat("en-US",
{style:"currency", currency:"USD"})` formatter ("formats as US-dollar currency
with 2 decimal places"): half-away-from-zero rounding to cents, comma
grouping, `$` prefix, leading `-` for negative values. -/
def intlUsd (q : ℚ) : String :=
  let n : Nat := (⌊|q| * 100 + 1/2⌋).toNat
  (if q < 0 then "-$" else "$") ++ groupDigits (toString (n / 100)) ++ "." ++
    twoDigitStr (n % 100)

/-- Modelled from the spec: JS `Number(string)` coercion performed by the
`Intl` formatter on string input, decimal fragment: trimmed; empty string is
0; otherwise the whole string must be a signed decimal literal, else NaN
(`none`). -/
def jsStringToNumber (s : String) : Option ℚ :=
  let cs := ((s.toList.dropWhile isWs).reverse.dropWhile isWs).reverse
  if cs.isEmpty then some 0
  else
    let (sign, cs1) : ℚ × List Char :=
      match cs with
      | '+' :: r => (1, r)
      | '-' :: r => (-1, r)
      | r => (1, r)
    let (intDs, cs2) := takeDigits cs1
    let (fracDs, cs3) :=
      match cs2 with
      | '.' :: r => takeDigits r
      | r => ([], r)
    if intDs.isEmpty && fracDs.isEmpty then none
    else
      let mantissa : ℚ :=
        (digitsToNat intDs : ℚ) + (digitsToNat fracDs : ℚ) / (10 : ℚ) ^ fracDs.length
      match cs3 with
      | [] => some (sign * mantissa)
      | c :: rest =>
        if c == 'e' || c == 'E' then
          let (esign, rest2) : Int × List Char :=
            match rest with
            | '+' :: r => (1, r)
            | '-' :: r => (-1, r)
            | r => (1, r)
          let (eds, rest3) := takeDigits rest2
          if eds.isEmpty || !rest3.isEmpty then none
          else some (sign * mantissa * (10 : ℚ) ^ (esign * (digitsToNat eds : Int)))
        else none

/-- USD formatting of a string input: coerce then format; NaN renders `$NaN`. -/
def intlUsdOfStr (s : String) : String :=
  match jsStringToNumber s with
  | some q => intlUsd q
  | none => "$NaN"

/-- Embeds `formatCurrency` (src/App.jsx lines 78-84): `if (!val) return "-"`
then Intl USD formatting. The falsy values reachable here are the number 0 and
the empty string. -/
def formatCurrency : JsVal → String
  | .num q => if q = 0 then "-" else intlUsd q
  | .str s => if s = "" then "-" else intlUsdOfStr s

/-! ## Sync engine (the `onSnapshot` callback, src/App.jsx lines 275-314) -/

/-- A remote document: its storage key and its body (a product record whose
own `id` field may disagree with the key). -/
abbrev RemoteDoc := String × Product

/-- The mapping step `{ ...doc.data(), id: doc.id }`: the record's `id` is
forced to the document's storage key. -/
def projectDoc (kv : RemoteDoc) : Product :=
  { kv.2 with id := kv.1 }

/-- The sort key `p.createdAt || 0` (missing/falsy treated as 0). -/
def snapKey (p : Product) : Int :=
  p.createdAt.getD 0

/-- The snapshot projection: map every document through `projectDoc`, then
sort descending by `snapKey` (the source uses the engine sort with comparator
`(b.createdAt || 0) - (a.createdAt || 0)`; the spec leaves tie order
undefined, so any sort for the total preorder is a faithful model). -/
def processSnapshot (snap : List RemoteDoc) : List Product :=
  List.insertionSort (fun a b => snapKey b ≤ snapKey a) (snap.map projectDoc)

/-- State touched by the snapshot callback: the in-memory collection, the
local fallback cache slot, and the loading flag. The cache slot is `none`
when `localStorage.getItem(LOCAL_STORAGE_KEY)` is falsy (absent or the empty
string) and `some l` when it holds a non-empty string deserialising to `l`. -/
structure SyncState where
  products : List Product
  localCache : Option (List Product)
  loading : Bool
deriving DecidableEq

/-- Outcome of one snapshot event: the new state plus the `setDoc` write
intents issued (fire-and-forget; the source does not await them). -/
structure SyncResult where
  state : SyncState
  writes : List RemoteDoc
deriving DecidableEq

/-- Embeds the `onSnapshot` callback: rebuild the collection from the
snapshot, end loading, and if the snapshot is empty and the cache slot is
truthy, write every cached record under its own id and clear the slot
unconditionally (without awaiting the writes). -/
def onSnapshotStep (st : SyncState) (snap : List RemoteDoc) : SyncResult :=
  let items := processSnapshot snap
  let st1 : SyncState := { st with products := items, loading := false }
  if items.length = 0 then
    match st1.localCache with
    | some localData =>
      { state := { st1 with localCache := none },
        writes := localData.map (fun prod => (prod.id, prod)) }
    | none => { state := st1, writes := [] }
  else
    { state := st1, writes := [] }

/-- `setDoc` without merge at a key: create-or-overwrite in the remote
association list. -/
def setDocKV (remote : List RemoteDoc) (k : String) (p : Product) :
    List RemoteDoc :=
  if remote.any (fun kv => kv.1 == k) then
    remote.map (fun kv => if kv.1 == k then (k, p) else kv)
  else
    remote ++ [(k, p)]

/-- Applies a list of write intents to a remote collection, in order. -/
def applyWrites (remote : List RemoteDoc) (ws : List RemoteDoc) :
    List RemoteDoc :=
  ws.foldl (fun r kv => setDocKV r kv.1 kv.2) remote

/-- Reads the document stored under a key, if any. -/
def lookupDoc (remote : List RemoteDoc) (k : String) : Option Product :=
  (remote.find? (fun kv => kv.1 == k)).map (fun kv => kv.2)

/-! ## Mutation gateway (src/App.jsx lines 347-428) -/

/-- `products.find((p) => p.id === productId)`. -/
def jsFind (products : List Product) (productId : String) : Option Product :=
  products.find? (fun p => p.id == productId)

/-- The field names the app passes to competitor updates. -/
inductive CompetitorField where
  | brand | adLink | storeLink | adsCount | traffic
deriving DecidableEq

def Competitor.getField (c : Competitor) : CompetitorField → String
  | .brand => c.brand
  | .adLink => c.adLink
  | .storeLink => c.storeLink
  | .adsCount => c.adsCount
  | .traffic => c.traffic

/-- `{ ...comp, [field]: value }` on a competitor. -/
def Competitor.setField (c : Competitor) : CompetitorField → String → Competitor
  | .brand, v => { c with brand := v }
  | .adLink, v => { c with adLink := v }
  | .storeLink, v => { c with storeLink := v }
  | .adsCount, v => { c with adsCount := v }
  | .traffic, v => { c with traffic := v }

/-- The field names the app passes to link updates. -/
inductive LinkField where
  | id | title | url
deriving DecidableEq

/-- `{ ...link, [field]: value }` on a link. -/
def OtherLink.setField (l : OtherLink) : LinkField → String → OtherLink
  | .id, v => { l with id := v }
  | .title, v => { l with title := v }
  | .url, v => { l with url := v }

/-- The merge-write payloads issued by the nested-field handlers. -/
inductive UpdatePayload where
  | competitors : List Competitor → UpdatePayload
  | otherLinks : List OtherLink → UpdatePayload
deriving DecidableEq

/-- Embeds `handleUpdateProduct`: with no user it is a no-op; otherwise it
issues the merge-write `{field: payload}` against the product's document.
The returned pair is the write intent. -/
def handleUpdateProduct (user : Bool) (id : String) (payload : UpdatePayload) :
    Option (String × UpdatePayload) :=
  if !user then none else some (id, payload)

/-- Embeds `handleUpdateCompetitor` (lines 365-377): look the product up in
the local collection, copy its competitor array, replace index `compIndex`
with `{ ...comp, [field]: value }`, and write the whole array. The model
covers in-bounds indices; the UI only passes indices 0-2 of the 3-element
array (out of bounds, the JS array would extend with holes). -/
def handleUpdateCompetitor (user : Bool) (products : List Product)
    (productId : String) (compIndex : Nat) (f : CompetitorField) (v : String) :
    Option (String × UpdatePayload) :=
  if !user then none else
  match jsFind products productId with
  | none => none
  | some product =>
    match product.competitors[compIndex]? with
    | some comp =>
      handleUpdateProduct user productId
        (.competitors (product.competitors.set compIndex (comp.setField f v)))
    | none => handleUpdateProduct user productId (.competitors product.competitors)

/-- Embeds `handleAddOtherLink` (lines 379-389): append a blank link with a
freshly generated id (the random `generateId()` result is passed in as
`newId`). -/
def handleAddOtherLink (user : Bool) (products : List Product)
    (productId : String) (newId : String) : Option (String × UpdatePayload) :=
  if !user then none else
  match jsFind products productId with
  | none => none
  | some product =>
    handleUpdateProduct user productId
      (.otherLinks (product.otherLinks ++ [{ id := newId, title := "", url := "" }]))

/-- Embeds `handleUpdateOtherLink` (lines 391-400): map over the links,
rewriting only those whose id matches. -/
def handleUpdateOtherLink (user : Bool) (products : List Product)
    (productId : String) (linkId : String) (f : LinkField) (v : String) :
    Option (String × UpdatePayload) :=
  if !user then none else
  match jsFind products productId with
  | none => none
  | some product =>
    handleUpdateProduct user productId
      (.otherLinks (product.otherLinks.map
        (fun link => if link.id == linkId then link.setField f v else link)))

/-- Embeds `handleDeleteOtherLink` (lines 402-411): filter out the links
whose id matches. -/
def handleDeleteOtherLink (user : Bool) (products : List Product)
    (productId : String) (linkId : String) : Option (String × UpdatePayload) :=
  if !user then none else
  match jsFind products productId with
  | none => none
  | some product =>
    handleUpdateProduct user productId
      (.otherLinks (product.otherLinks.filter (fun link => !(link.id == linkId))))

/-- Embeds `handleDeleteProduct` (lines 413-428) on the success path: with a
user, the remote document is deleted and `setSelectedId(null)` runs
unconditionally. Returns the new selection and whether a delete was issued. -/
def handleDeleteProduct (user : Bool) (selectedId : Option String)
    (_id : String) : Option String × Bool :=
  if !user then (selectedId, false) else (none, true)

/-! ## Filter (src/App.jsx lines 430-436) -/

/-- ASCII `toLowerCase`. -/
def toLowerStr (s : String) : String :=
  String.map Char.toLower s

/-- `String.prototype.startsWith` on character lists. -/
def jsStartsWith : List Char → List Char → Bool
  | _, [] => true
  | [], _ :: _ => false
  | c :: s, d :: t => c == d && jsStartsWith s t

def jsIncludesAux : List Char → List Char → Bool
  | [], sub => sub.isEmpty
  | s@(_ :: t), sub => jsStartsWith s sub || jsIncludesAux t sub

/-- `String.prototype.includes`: substring containment (the empty needle is
contained in every string). -/
def jsIncludes (s sub : String) : Bool :=
  jsIncludesAux s.toList sub.toList

/-- Embeds `filteredProducts`: keep the products whose lower-cased name or
status contains the lower-cased query. -/
def filteredProducts (products : List Product) (searchQuery : String) :
    List Product :=
  products.filter (fun p =>
    jsIncludes (toLowerStr p.name) (toLowerStr searchQuery) ||
    jsIncludes (toLowerStr p.status) (toLowerStr searchQuery))

/-! ## Concrete records used in scenario conjuncts and witnesses -/

def prodA : Product :=
  { NEW_PRODUCT_TEMPLATE with id := "idA", name := "Alpha", createdAt := some 1 }

def prodB : Product :=
  { NEW_PRODUCT_TEMPLATE with id := "idB", name := "Beta", createdAt := some 2 }

def docA100 : Product :=
  { NEW_PRODUCT_TEMPLATE with name := "A", createdAt := some 100 }

def docBnone : Product :=
  { NEW_PRODUCT_TEMPLATE with name := "B", createdAt := none }

def docC300 : Product :=
  { NEW_PRODUCT_TEMPLATE with name := "C", createdAt := some 300 }

def widgetPro : Product :=
  { NEW_PRODUCT_TEMPLATE with id := "w", name := "Widget Pro", status := "Pending" }

def gadget : Product :=
  { NEW_PRODUCT_TEMPLATE with id := "g", name := "Gadget", status := "Approved" }

def link1 : OtherLink := { id := "L1", title := "one", url := "u1" }

def link2 : OtherLink := { id := "L2", title := "two", url := "u2" }

def link3 : OtherLink := { id := "L3", title := "three", url := "u3" }

def compX : Competitor :=
  { brand := "X", adLink := "ax", storeLink := "sx", adsCount := "1", traffic := "tx" }

def compY : Competitor :=
  { brand := "Y", adLink := "ay", storeLink := "sy", adsCount := "2", traffic := "ty" }

def compZ : Competitor :=
  { brand := "Z", adLink := "az", storeLink := "sz", adsCount := "3", traffic := "tz" }

def prodC : Product :=
  { NEW_PRODUCT_TEMPLATE with
    id := "cid"
    name := "Gamma"
    competitors := [compX, compY, compZ]
    otherLinks := [link1, link2, link3] }

/-! ## Helper lemmas -/

/-- The empty needle is contained in every string (JS `includes`). -/
theorem jsIncludesAux_nil (l : List Char) : jsIncludesAux l [] = true := by
  cases l <;> simp [jsIncludesAux, jsStartsWith]

/-- `intlUsd` unfolded to its concatenation shape. -/
theorem intlUsd_eq (q : ℚ) :
    intlUsd q =
      (if q < 0 then "-$" else "$") ++
        groupDigits (toString ((⌊|q| * 100 + 1 / 2⌋).toNat / 100)) ++ "." ++
        twoDigitStr ((⌊|q| * 100 + 1 / 2⌋).toNat % 100) := rfl

/-- The USD formatter never returns the bare placeholder. -/
theorem intlUsd_ne_dash (q : ℚ) : intlUsd q ≠ "-" := by
  intro h
  have hc := congrArg String.length h
  rw [intlUsd_eq] at hc
  by_cases hq : q < 0 <;>
    simp only [hq, if_true, if_false, String.length_append,
      show ("-$" : String).length = 2 from rfl,
      show ("$" : String).length = 1 from rfl,
      show ("." : String).length = 1 from rfl,
      show ("-" : String).length = 1 from rfl] at hc <;>
    omega

/-- Neither branch of the string-coercion formatter is the placeholder. -/
theorem intlUsdOfStr_ne_dash (s : String) : intlUsdOfStr s ≠ "-" := by
  unfold intlUsdOfStr
  cases jsStringToNumber s with
  | none => decide
  | some q => exact intlUsd_ne_dash q

/-- Overwriting path of `setDocKV`: if some stored key matches, the rewritten
document is found under the key. -/
theorem find?_map_overwrite (remote : List RemoteDoc) (k : String) (p : Product)
    (h : remote.any (fun kv => kv.1 == k) = true) :
    (remote.map (fun kv => if kv.1 == k then (k, p) else kv)).find?
      (fun kv => kv.1 == k) = some (k, p) := by
  induction remote with
  | nil => simp at h
  | cons kv rest ih =>
    by_cases hk : (kv.1 == k) = true
    · simp only [List.map_cons, hk, if_true]
      rw [List.find?_cons_of_pos _ (by simp)]
    · have hkf : (kv.1 == k) = false := by simpa using hk
      simp only [List.map_cons, hkf, Bool.false_eq_true, if_false, List.find?_cons]
      apply ih
      simpa [List.any_cons, hk] using h


/-- Creation path of `setDocKV`: if no stored key matches, the appended
document is found under the key. -/
theorem find?_append_missing (remote : List RemoteDoc) (k : String) (p : Product)
    (h : remote.any (fun kv => kv.1 == k) = false) :
    ((remote ++ [(k, p)]).find? (fun kv => kv.1 == k)) = some (k, p) := by
  induction remote with
  | nil =>
    simp only [List.nil_append]
    rw [List.find?_cons_of_pos _ (by simp)]
  | cons kv rest ih =>
    simp only [List.any_cons, Bool.or_eq_false_iff] at h
    simp only [List.cons_append]
    rw [List.find?_cons_of_neg _ (by simp [h.1])]
    exact ih (by simp [h.2])

/-- `setDoc` at a key is create-or-overwrite: reading the key back yields the
written document. -/
theorem lookupDoc_setDocKV_self (remote : List RemoteDoc) (k : String)
    (p : Product) : lookupDoc (setDocKV remote k p) k = some p := by
  unfold lookupDoc setDocKV
  by_cases h : remote.any (fun kv => kv.1 == k) = true
  · rw [if_pos h, find?_map_overwrite remote k p h]
    rfl
  · rw [if_neg h, find?_append_missing remote k p
      (by simp only [Bool.not_eq_true] at h; exact h)]
    rfl

/-! ## Claim theorems -/

/-- C3: on every snapshot event the local collection is fully replaced by a
deterministic projection of the snapshot: each remote document maps to a
record whose id is the document's storage key, and the records are a
permutation of the mapped documents sorted descending by `createdAt` with
missing/falsy values treated as 0; records with `createdAt` = [100, missing,
300] project to the order [300, 100, missing]. -/
theorem snapshot_projection_spec :
    (∀ kv : RemoteDoc, (projectDoc kv).id = kv.1) ∧
    (∀ snap : List RemoteDoc, (processSnapshot snap).Perm (snap.map projectDoc)) ∧
    (∀ snap : List RemoteDoc,
      (processSnapshot snap).Sorted (fun a b => snapKey b ≤ snapKey a)) ∧
    (∀ (st : SyncState) (snap : List RemoteDoc),
      (onSnapshotStep st snap).state.products = processSnapshot snap) ∧
    processSnapshot [("a", docA100), ("b", docBnone), ("c", docC300)] =
      [projectDoc ("c", docC300), projectDoc ("a", docA100),
        projectDoc ("b", docBnone)] := by
  refine ⟨fun kv => rfl, fun snap => List.perm_insertionSort _ _, ?_, ?_, ?_⟩
  · intro snap
    haveI h1 : IsTotal Product (fun a b => snapKey b ≤ snapKey a) :=
      ⟨fun a b => le_total (snapKey b) (snapKey a)⟩
    haveI h2 : IsTrans Product (fun a b => snapKey b ≤ snapKey a) :=
      ⟨fun _ _ _ hab hbc => le_trans hbc hab⟩
    exact List.sorted_insertionSort _ _
  · intro st snap
    unfold onSnapshotStep
    by_cases h : (processSnapshot snap).length = 0 <;>
      rcases hc : st.localCache with _ | l <;>
      simp [h, hc]
  · with_unfolding_all rfl

/-- C4 counterexample: with product "b" not selected (selection is "a"),
deleting "b" does NOT leave the selection unchanged — the handler runs
`setSelectedId(null)` unconditionally. -/
theorem deleteProduct_counterexample :
    ¬((handleDeleteProduct true (some "a") "b").1 = some "a") := by
  decide

/-- C4 amended: deleting a product (with an active session, success path)
always clears the selection to none, whether or not the deleted product was
the selected one; in particular deleting the selected product clears the
selection. Without a session the handler is a no-op. -/
theorem deleteProduct_amended :
    ∀ (selectedId : Option String) (id : String),
      handleDeleteProduct true selectedId id = (none, true) ∧
      handleDeleteProduct false selectedId id = (selectedId, false) :=
  fun _ _ => ⟨rfl, rfl⟩

/-- C5: updating field `f` of competitor `i` of a product found in the local
collection issues a write whose competitor sequence has the same length,
agrees with the original at every index other than `i`, and at `i` holds the
original element with only field `f` replaced by the new value. -/
theorem updateCompetitor_frame :
    ∀ (products : List Product) (productId : String) (i : Nat)
      (f : CompetitorField) (v : String) (prod : Product),
      jsFind products productId = some prod →
      i < prod.competitors.length →
      ∃ (newCompetitors : List Competitor) (comp : Competitor),
        prod.competitors[i]? = some comp ∧
        handleUpdateCompetitor true products productId i f v =
          some (productId, UpdatePayload.competitors newCompetitors) ∧
        newCompetitors.length = prod.competitors.length ∧
        (∀ j : Nat, j ≠ i → newCompetitors[j]? = prod.competitors[j]?) ∧
        newCompetitors[i]? = some (comp.setField f v) ∧
        (comp.setField f v).getField f = v ∧
        (∀ g : CompetitorField, g ≠ f →
          (comp.setField f v).getField g = comp.getField g) := by
  intro products productId i f v prod hfind hi
  have hcomp : prod.competitors[i]? = some prod.competitors[i] :=
    List.getElem?_eq_getElem hi
  refine ⟨prod.competitors.set i ((prod.competitors[i]).setField f v),
    prod.competitors[i], hcomp, ?_, List.length_set _ _ _, ?_, ?_, ?_, ?_⟩
  · simp [handleUpdateCompetitor, handleUpdateProduct, hfind, hcomp]
  · intro j hj
    exact List.getElem?_set_ne (Ne.symm hj)
  · exact List.getElem?_set_self hi
  · cases f <;> rfl
  · intro g hg
    cases f <;> cases g <;> first | rfl | exact absurd rfl hg

/-- C6: deleting a link by an id present in a product's `otherLinks` issues a
write whose link sequence is a subsequence of the original (relative order
and identities preserved), contains no link with the deleted id, and keeps
every link with a different id with its original multiplicity. -/
theorem deleteOtherLink_frame :
    ∀ (products : List Product) (productId linkId : String) (prod : Product),
      jsFind products productId = some prod →
      linkId ∈ prod.otherLinks.map OtherLink.id →
      ∃ newLinks : List OtherLink,
        handleDeleteOtherLink true products productId linkId =
          some (productId, UpdatePayload.otherLinks newLinks) ∧
        newLinks.Sublist prod.otherLinks ∧
        (∀ l ∈ newLinks, l.id ≠ linkId) ∧
        (∀ l : OtherLink, l.id ≠ linkId →
          newLinks.count l = prod.otherLinks.count l) := by
  intro products productId linkId prod hfind _hmem
  refine ⟨prod.otherLinks.filter (fun l => !(l.id == linkId)),
    ?_, List.filter_sublist _, ?_, ?_⟩
  · simp [handleDeleteOtherLink, handleUpdateProduct, hfind]
  · intro l hl
    simpa using List.of_mem_filter hl
  · intro l hne
    exact List.count_filter (by simpa using hne)

/-- C7 counterexample: with products "Widget Pro" (status Pending) and
"Gadget" (status Approved), the query "pro" does NOT return exactly
["Widget Pro"]: the case-folded status "approved" also contains "pro", so
"Gadget" matches as well. -/
theorem filteredProducts_counterexample :
    filteredProducts [widgetPro, gadget] "pro" ≠ [widgetPro] := by
  with_unfolding_all decide

/-- C7 amended: the filter returns exactly the subsequence of products whose
name or status, case-folded, contains the case-folded query as a substring,
preserving source order; the empty query returns the full collection. With
products "Widget Pro"/Pending and "Gadget"/Approved, query "pro" returns both
(the status "Approved" case-folds to "approved", which contains "pro"),
query "approved" returns exactly ["Gadget"], and query "" returns both in
original order. -/
theorem filteredProducts_spec :
    (∀ (products : List Product) (q : String),
      (filteredProducts products q).Sublist products) ∧
    (∀ (products : List Product) (q : String) (p : Product),
      p ∈ filteredProducts products q ↔
        p ∈ products ∧
          (jsIncludes (toLowerStr p.name) (toLowerStr q) = true ∨
            jsIncludes (toLowerStr p.status) (toLowerStr q) = true)) ∧
    (∀ products : List Product, filteredProducts products "" = products) ∧
    filteredProducts [widgetPro, gadget] "pro" = [widgetPro, gadget] ∧
    filteredProducts [widgetPro, gadget] "approved" = [gadget] ∧
    filteredProducts [widgetPro, gadget] "" = [widgetPro, gadget] := by
  refine ⟨fun products q => List.filter_sublist _, ?_, ?_, ?_, ?_, ?_⟩
  · intro products q p
    unfold filteredProducts
    rw [List.mem_filter, Bool.or_eq_true]
  · intro products
    apply List.filter_eq_self.mpr
    intro p _hp
    have h0 : toLowerStr "" = "" := by with_unfolding_all rfl
    simp [h0, jsIncludes, show ("" : String).toList = [] from rfl,
      jsIncludesAux_nil]
  · with_unfolding_all rfl
  · with_unfolding_all rfl
  · with_unfolding_all rfl

/-- C9: if no product with the given id exists in the local collection, every
competitor/link mutation handler is a silent no-op: no write is issued. -/
theorem missingProduct_noop :
    ∀ (products : List Product) (productId : String),
      (∀ p ∈ products, p.id ≠ productId) →
      ∀ (i : Nat) (f : CompetitorField) (v : String) (linkId newId w : String)
        (g : LinkField),
        handleUpdateCompetitor true products productId i f v = none ∧
        handleAddOtherLink true products productId newId = none ∧
        handleUpdateOtherLink true products productId linkId g w = none ∧
        handleDeleteOtherLink true products productId linkId = none := by
  intro products productId h i f v linkId newId w g
  have hfind : jsFind products productId = none := by
    unfold jsFind
    rw [List.find?_eq_none]
    intro p hp
    simpa using h p hp
  exact ⟨by simp [handleUpdateCompetitor, hfind],
    by simp [handleAddOtherLink, hfind],
    by simp [handleUpdateOtherLink, hfind],
    by simp [handleDeleteOtherLink, hfind]⟩

/-- C10: a link mutation addressed to an id absent from the product's
`otherLinks` computes a link sequence equal to the original, for both the
update and the delete handlers: the issued write is an identity on the
`otherLinks` field. -/
theorem absentLink_identity :
    ∀ (products : List Product) (productId linkId : String) (prod : Product)
      (f : LinkField) (v : String),
      jsFind products productId = some prod →
      (∀ l ∈ prod.otherLinks, l.id ≠ linkId) →
      handleUpdateOtherLink true products productId linkId f v =
        some (productId, UpdatePayload.otherLinks prod.otherLinks) ∧
      handleDeleteOtherLink true products productId linkId =
        some (productId, UpdatePayload.otherLinks prod.otherLinks) := by
  intro products productId linkId prod f v hfind habs
  have hmap : prod.otherLinks.map
      (fun link => if link.id == linkId then link.setField f v else link) =
      prod.otherLinks := by
    have := List.map_congr_left
      (fun l hl => if_neg (by simpa using habs l hl) :
        ∀ l ∈ prod.otherLinks,
          (if l.id == linkId then l.setField f v else l) = id l)
    rw [this]
    simp
  have hfil : prod.otherLinks.filter (fun l => !(l.id == linkId)) =
      prod.otherLinks :=
    List.filter_eq_self.mpr (fun l hl => by simpa using habs l hl)
  constructor
  · unfold handleUpdateOtherLink
    rw [hfind]
    exact congrArg (fun l => some (productId, UpdatePayload.otherLinks l)) hmap
  · unfold handleDeleteOtherLink
    rw [hfind]
    exact congrArg (fun l => some (productId, UpdatePayload.otherLinks l)) hfil

/-- C5 witness: updating competitor index 1's brand on a concrete product. -/
theorem updateCompetitor_frame_witness :
    ∃ (newCompetitors : List Competitor) (comp : Competitor),
      prodC.competitors[1]? = some comp ∧
      handleUpdateCompetitor true [prodC] "cid" 1 CompetitorField.brand "NewBrand" =
        some ("cid", UpdatePayload.competitors newCompetitors) ∧
      newCompetitors.length = prodC.competitors.length ∧
      (∀ j : Nat, j ≠ 1 → newCompetitors[j]? = prodC.competitors[j]?) ∧
      newCompetitors[1]? =
        some (comp.setField CompetitorField.brand "NewBrand") ∧
      (comp.setField CompetitorField.brand "NewBrand").getField
        CompetitorField.brand = "NewBrand" ∧
      (∀ g : CompetitorField, g ≠ CompetitorField.brand →
        (comp.setField CompetitorField.brand "NewBrand").getField g =
          comp.getField g) :=
  updateCompetitor_frame [prodC] "cid" 1 CompetitorField.brand "NewBrand" prodC
    (by with_unfolding_all rfl) (by decide)

/-- C6 witness: deleting link "L2" from a concrete 3-link product. -/
theorem deleteOtherLink_frame_witness :
    ∃ newLinks : List OtherLink,
      handleDeleteOtherLink true [prodC] "cid" "L2" =
        some ("cid", UpdatePayload.otherLinks newLinks) ∧
      newLinks.Sublist prodC.otherLinks ∧
      (∀ l ∈ newLinks, l.id ≠ "L2") ∧
      (∀ l : OtherLink, l.id ≠ "L2" →
        newLinks.count l = prodC.otherLinks.count l) :=
  deleteOtherLink_frame [prodC] "cid" "L2" prodC (by with_unfolding_all rfl)
    (by with_unfolding_all decide)

/-- C9 witness: mutations addressed to an id absent from the collection. -/
theorem missingProduct_noop_witness :
    handleUpdateCompetitor true [prodC] "nope" 0 CompetitorField.brand "x" = none ∧
    handleAddOtherLink true [prodC] "nope" "id9" = none ∧
    handleUpdateOtherLink true [prodC] "nope" "L1" LinkField.title "t" = none ∧
    handleDeleteOtherLink true [prodC] "nope" "L1" = none :=
  missingProduct_noop [prodC] "nope" (by with_unfolding_all decide) 0
    CompetitorField.brand "x" "L1" "id9" "t" LinkField.title

/-- C10 witness: link mutations addressed to the absent id "L9". -/
theorem absentLink_identity_witness :
    handleUpdateOtherLink true [prodC] "cid" "L9" LinkField.title "t" =
      some ("cid", UpdatePayload.otherLinks prodC.otherLinks) ∧
    handleDeleteOtherLink true [prodC] "cid" "L9" =
      some ("cid", UpdatePayload.otherLinks prodC.otherLinks) :=
  absentLink_identity [prodC] "cid" "L9" prodC LinkField.title "t"
    (by with_unfolding_all rfl) (by with_unfolding_all decide)

/-- C2: the local-to-remote migration runs exactly when a snapshot arrives
with zero records and the local cache slot is truthy; it writes every cached
record to the remote collection under its own id (create-or-overwrite) and
clears the cache unconditionally (the writes are fire-and-forget intents —
the clear does not depend on their outcome). Scenario: empty snapshot, cache
of two records: both land under their original ids, cache ends empty. -/
theorem migration_spec :
    (∀ (st : SyncState) (snap : List RemoteDoc) (localData : List Product),
      st.localCache = some localData → processSnapshot snap = [] →
        (onSnapshotStep st snap).writes =
          localData.map (fun prod => (prod.id, prod)) ∧
        (onSnapshotStep st snap).state.localCache = none) ∧
    (∀ (st : SyncState) (snap : List RemoteDoc),
      processSnapshot snap ≠ [] ∨ st.localCache = none →
        (onSnapshotStep st snap).writes = [] ∧
        (onSnapshotStep st snap).state.localCache = st.localCache) ∧
    (∀ (remote : List RemoteDoc) (k : String) (p : Product),
      lookupDoc (setDocKV remote k p) k = some p) ∧
    (lookupDoc (applyWrites []
        (onSnapshotStep ⟨[], some [prodA, prodB], true⟩ []).writes) "idA" =
          some prodA ∧
      lookupDoc (applyWrites []
        (onSnapshotStep ⟨[], some [prodA, prodB], true⟩ []).writes) "idB" =
          some prodB ∧
      (onSnapshotStep ⟨[], some [prodA, prodB], true⟩ []).state.localCache =
        none) := by
  refine ⟨?_, ?_, lookupDoc_setDocKV_self, ?_, ?_, ?_⟩
  · intro st snap localData hc hsnap
    have hlen : (processSnapshot snap).length = 0 := by rw [hsnap]; rfl
    unfold onSnapshotStep
    simp [hlen, hc]
  · intro st snap h
    unfold onSnapshotStep
    rcases h with h | h
    · have hlen : ¬(processSnapshot snap).length = 0 := by
        simpa [List.length_eq_zero] using h
      simp [hlen]
    · by_cases hlen : (processSnapshot snap).length = 0 <;> simp [hlen, h]
  · with_unfolding_all rfl
  · with_unfolding_all rfl
  · with_unfolding_all rfl

/-- C2 witness: one cached record, empty snapshot. -/
theorem migration_spec_witness :
    (onSnapshotStep ⟨[], some [prodA], true⟩ []).writes = [("idA", prodA)] ∧
    (onSnapshotStep ⟨[], some [prodA], true⟩ []).state.localCache = none := by
  have h := migration_spec.1 ⟨[], some [prodA], true⟩ [] [prodA] rfl
    (by with_unfolding_all rfl)
  exact ⟨h.1.trans (by with_unfolding_all rfl), h.2⟩

/-- C1: `calculateRoas` returns null exactly when either input fails to
parse; with both parsed and margin `p - c ≤ 0` it returns the number 0; and
for parsed values `p > c > 0` it returns the string `toFixed2 (p / (p - c))`,
whose rounded-to-cents value is positive, an outcome distinct from both the
null and the zero results. -/
theorem calculateRoas_spec :
    (∀ price cogs : String,
      calculateRoas price cogs = RoasResult.null ↔
        (parseFloat price = none ∨ parseFloat cogs = none)) ∧
    (∀ (price cogs : String) (p c : ℚ),
      parseFloat price = some p → parseFloat cogs = some c → p - c ≤ 0 →
        calculateRoas price cogs = RoasResult.num 0) ∧
    (∀ (price cogs : String) (p c : ℚ),
      parseFloat price = some p → parseFloat cogs = some c → 0 < c → c < p →
        calculateRoas price cogs = RoasResult.str (toFixed2 (p / (p - c))) ∧
        0 < ⌊p / (p - c) * 100 + 1 / 2⌋ ∧
        calculateRoas price cogs ≠ RoasResult.null ∧
        calculateRoas price cogs ≠ RoasResult.num 0) := by
  refine ⟨?_, ?_, ?_⟩
  · intro price cogs
    unfold calculateRoas
    rcases hp : parseFloat price with _ | p <;>
      rcases hc : parseFloat cogs with _ | c <;> simp
    split <;> simp
  · intro price cogs p c hp hc hm
    unfold calculateRoas
    rw [hp, hc]
    show (if p - c ≤ 0 then RoasResult.num 0 else _) = RoasResult.num 0
    rw [if_pos hm]
  · intro price cogs p c hp hc hc0 hcp
    have hpos : 0 < p - c := sub_pos.mpr hcp
    have hm : ¬(p - c ≤ 0) := not_le.mpr hpos
    have hstr : calculateRoas price cogs =
        RoasResult.str (toFixed2 (p / (p - c))) := by
      unfold calculateRoas
      rw [hp, hc]
      show (if p - c ≤ 0 then RoasResult.num 0
        else RoasResult.str (toFixed2 (p / (p - c)))) = _
      rw [if_neg hm]
    have hratio : 1 < p / (p - c) :=
      (one_lt_div hpos).mpr (sub_lt_self p hc0)
    refine ⟨hstr, ?_, by rw [hstr]; simp, by rw [hstr]; simp⟩
    have h1 : (1 : ℤ) ≤ ⌊p / (p - c) * 100 + 1 / 2⌋ :=
      Int.le_floor.mpr (by push_cast; nlinarith)
    omega

/-- C1 witness: parsed inputs hitting each of the three outcomes. -/
theorem calculateRoas_spec_witness :
    calculateRoas "10" "4" = RoasResult.str (toFixed2 (10 / (10 - 4))) ∧
    calculateRoas "" "4" = RoasResult.null ∧
    calculateRoas "4" "10" = RoasResult.num 0 := by
  refine ⟨(calculateRoas_spec.2.2 "10" "4" 10 4 ?_ ?_ ?_ ?_).1,
    (calculateRoas_spec.1 "" "4").mpr (Or.inl ?_),
    calculateRoas_spec.2.1 "4" "10" 4 10 ?_ ?_ ?_⟩
  · with_unfolding_all rfl
  · with_unfolding_all rfl
  · norm_num
  · norm_num
  · with_unfolding_all rfl
  · with_unfolding_all rfl
  · with_unfolding_all rfl
  · norm_num

/-- C8: `formatCurrency` returns the placeholder exactly on the falsy inputs
0 and the empty string; on every other input it delegates to the modelled
Intl USD formatter; `formatCurrency(19.9)` renders "$19.90". -/
theorem formatCurrency_spec :
    formatCurrency (JsVal.num 0) = "-" ∧
    formatCurrency (JsVal.str "") = "-" ∧
    (∀ q : ℚ, q ≠ 0 → formatCurrency (JsVal.num q) = intlUsd q) ∧
    (∀ s : String, s ≠ "" → formatCurrency (JsVal.str s) = intlUsdOfStr s) ∧
    (∀ v : JsVal, formatCurrency v = "-" ↔
      (v = JsVal.num 0 ∨ v = JsVal.str "")) ∧
    formatCurrency (JsVal.num (199 / 10)) = "$19.90" := by
  have h3 : ∀ q : ℚ, q ≠ 0 → formatCurrency (JsVal.num q) = intlUsd q := by
    intro q hq
    show (if q = 0 then "-" else intlUsd q) = intlUsd q
    rw [if_neg hq]
  have h4 : ∀ s : String, s ≠ "" →
      formatCurrency (JsVal.str s) = intlUsdOfStr s := by
    intro s hs
    show (if s = "" then "-" else intlUsdOfStr s) = intlUsdOfStr s
    rw [if_neg hs]
  refine ⟨by with_unfolding_all rfl, by with_unfolding_all rfl, h3, h4, ?_,
    by with_unfolding_all rfl⟩
  intro v
  constructor
  · intro hv
    cases v with
    | num q =>
      by_cases hq : q = 0
      · exact Or.inl (by rw [hq])
      · exact absurd ((h3 q hq).symm.trans hv) (intlUsd_ne_dash q)
    | str s =>
      by_cases hs : s = ""
      · exact Or.inr (by rw [hs])
      · exact absurd ((h4 s hs).symm.trans hv) (intlUsdOfStr_ne_dash s)
  · rintro (h | h) <;> rw [h] <;> with_unfolding_all rfl

/-- C8 witness: non-falsy inputs delegate to the USD formatter. -/
theorem formatCurrency_spec_witness :
    formatCurrency (JsVal.num 5) = intlUsd 5 ∧
    formatCurrency (JsVal.str "19.9") = intlUsdOfStr "19.9" :=
  ⟨formatCurrency_spec.2.2.1 5 (by norm_num),
    formatCurrency_spec.2.2.2.1 "19.9" (by decide)⟩

end Dropship
